import Mathlib

/-!
# Verification of the Game of Life engine

Shallow embedding of the cellular-automaton engine of this repository
(`GameOfLife/board.py`, `GameOfLife/rules.py`, `GameOfLife/simulator.py`,
`GameOfLife/metaprogramming.py`, `GameOfLife/pattern_parser.py`), together
with theorems settling the claims about it.

Python integers are modelled as `Int` where a caller may pass a negative
value (cell coordinates), and as `Nat` where the source guarantees
non-negativity (loop counters, dimensions, generation counters).
Python lists are `List`; a Python string is modelled as its list of
characters (`List Char`).  Python exceptions are `Except` / an explicit
error component.  Logging calls have no observable effect and are dropped.
-/

set_option autoImplicit false

namespace GameOfLife

/-- Source `board.py`, `Board.__init__`: a board holds `width`, `height`, a
row-major cell buffer `grid` (`[[0 ...] for _ in range(height)]`) and a
`generation` counter. -/
structure Board where
  width : Nat
  height : Nat
  grid : List (List Nat)
  generation : Nat
  deriving Repr, DecidableEq

/-- Raw double indexing `grid[row][col]` (defaults are never hit on a
well-formed board; the sources index only after a bounds check). -/
def cellAt (g : List (List Nat)) (r c : Nat) : Nat :=
  (g.getD r []).getD c 0

/-- Raw assignment `grid[row][col] = v`. -/
def setCellRaw (g : List (List Nat)) (r c v : Nat) : List (List Nat) :=
  g.set r ((g.getD r []).set c v)

/-- Source `Board.__init__` cell buffer: `[[0 for _ in range(width)] for _ in range(height)]`. -/
def zerosGrid (h w : Nat) : List (List Nat) :=
  (List.range h).map (fun _ => (List.range w).map (fun _ => 0))

/-- Source `board.py`, `Board.get_cell`: returns `0` when `(row, col)` is outside
`[0,height) x [0,width)`, otherwise `self.grid[row][col]`. -/
def Board.get_cell (b : Board) (row col : Int) : Nat :=
  if 0 ≤ row ∧ row < (b.height : Int) ∧ 0 ≤ col ∧ col < (b.width : Int) then
    cellAt b.grid row.toNat col.toNat
  else
    0

/-- Source `board.py`, `Board.count_neighbors`: sums `self.grid[row+dr][col+dc]`
over the eight offsets `dr, dc ∈ {-1,0,1}, (dr,dc) ≠ (0,0)`, counting an
off-board neighbor as nothing (the bounds check guards the raw access). -/
def Board.count_neighbors (b : Board) (row col : Int) : Nat :=
  let offsets : List (Int × Int) :=
    [(-1, -1), (-1, 0), (-1, 1), (0, -1), (0, 1), (1, -1), (1, 0), (1, 1)]
  offsets.foldl
    (fun count d =>
      let nr := row + d.1
      let nc := col + d.2
      if 0 ≤ nr ∧ nr < (b.height : Int) ∧ 0 ≤ nc ∧ nc < (b.width : Int) then
        count + cellAt b.grid nr.toNat nc.toNat
      else
        count)
    0

/-- Source `board.py`, `Board.count_alive`: `sum(sum(row) for row in self.grid)`. -/
def Board.count_alive (b : Board) : Nat :=
  (b.grid.map (fun row => row.sum)).sum

/-- Error kinds raised by `Board.set_cell` (`IndexError` for out-of-bounds,
`ValueError` for a value other than 0 or 1). -/
inductive SetCellError where
  | outOfBounds
  | invalidValue
  deriving Repr, DecidableEq

/-- Source `board.py`, `Board.set_cell`, modelled as a state transformer: the
second component is the board object after the call (Python mutates the
object in place; when an exception is raised no statement has mutated it),
the first is the raised exception, if any.  The bounds check runs before
the value check, exactly as in the source. -/
def Board.set_cell (b : Board) (row col : Int) (value : Int) :
    Option SetCellError × Board :=
  if ¬(0 ≤ row ∧ row < (b.height : Int) ∧ 0 ≤ col ∧ col < (b.width : Int)) then
    (some .outOfBounds, b)
  else if ¬(value = 0 ∨ value = 1) then
    (some .invalidValue, b)
  else
    (none, { b with grid := setCellRaw b.grid row.toNat col.toNat value.toNat })

/-- Shape of a well-formed cell buffer: `height` rows of `width` cells. -/
def gridShape (g : List (List Nat)) (h w : Nat) : Prop :=
  g.length = h ∧ ∀ row ∈ g, row.length = w

/-!
## Rule variants (`rules.py`)

Each `evolve` in the source allocates a fresh all-DEAD board with
`generation = input.generation + 1`, then runs
`for row in range(height): for col in range(width): ...`, reading
`board.get_cell(row, col)` and `board.count_neighbors(row, col)` from the
input board and calling `new_board.set_cell(row, col, v)` on the fresh
board (loop indices are in range and `v` is the literal 0 or 1, so
`set_cell`'s checks always pass).  The three variants differ only in the
branch structure that decides the written value; `HighLifeRules` and
`DayAndNightRules` perform no write in their else-branches, leaving the
fresh board's initial DEAD value.

We embed the common loop once, threading the pair
(input board, fresh board) so that reads and writes to the two Python
objects stay distinguishable, and parameterize it by a per-cell `action`
giving `some v` when the variant's branch writes `v` and `none` when it
performs no write.
-/

/-- One iteration of the per-cell loop body shared by the three `evolve`
implementations: read `current_state` and `neighbors` from the input board
(first component), then either write to the fresh board (second component)
or leave it untouched, per `action`. -/
def evolveBody (action : Nat → Nat → Option Nat) (st : Board × Board)
    (row col : Nat) : Board × Board :=
  let currentState := st.1.get_cell (row : Int) (col : Int)
  let neighbors := st.1.count_neighbors (row : Int) (col : Int)
  match action currentState neighbors with
  | some v => (st.1, { st.2 with grid := setCellRaw st.2.grid row col v })
  | none => st

/-- The doubly nested `for row ... for col ...` loop of `evolve`, started
on (input board, fresh all-DEAD board of the same dimensions with
`generation + 1`). -/
def evolveLoop (action : Nat → Nat → Option Nat) (b : Board) : Board × Board :=
  let init : Board :=
    { width := b.width, height := b.height,
      grid := zerosGrid b.height b.width, generation := b.generation + 1 }
  (List.range b.height).foldl
    (fun st row =>
      (List.range b.width).foldl (fun st col => evolveBody action st row col) st)
    (b, init)

/-- Source `rules.py`, `StandardRules.evolve` branch structure: alive cells write
1 on 2 or 3 neighbors and 0 otherwise; dead cells write 1 on exactly 3
neighbors and 0 otherwise (every branch writes). -/
def stdAction (currentState neighbors : Nat) : Option Nat :=
  if currentState = 1 then
    if neighbors = 2 ∨ neighbors = 3 then some 1 else some 0
  else
    if neighbors = 3 then some 1 else some 0

/-- Source `rules.py`, `HighLifeRules.evolve` branch structure: alive cells write
1 on 2 or 3 neighbors; dead cells write 1 on 3 or 6 neighbors; no other
branch writes. -/
def highLifeAction (currentState neighbors : Nat) : Option Nat :=
  if currentState = 1 then
    if neighbors = 2 ∨ neighbors = 3 then some 1 else none
  else
    if neighbors = 3 ∨ neighbors = 6 then some 1 else none

/-- Source `rules.py`, `DayAndNightRules.evolve` branch structure: alive cells
write 1 on 3, 4, 6, 7 or 8 neighbors; dead cells write 1 on 3, 6, 7 or 8
neighbors; no other branch writes. -/
def dayAndNightAction (currentState neighbors : Nat) : Option Nat :=
  if currentState = 1 then
    if neighbors = 3 ∨ neighbors = 4 ∨ neighbors = 6 ∨ neighbors = 7 ∨ neighbors = 8
    then some 1 else none
  else
    if neighbors = 3 ∨ neighbors = 6 ∨ neighbors = 7 ∨ neighbors = 8
    then some 1 else none

/-- Source `rules.py`, `StandardRules.evolve`: the returned fresh board. -/
def StandardRules.evolve (b : Board) : Board := (evolveLoop stdAction b).2

/-- Source `rules.py`, `HighLifeRules.evolve`: the returned fresh board. -/
def HighLifeRules.evolve (b : Board) : Board := (evolveLoop highLifeAction b).2

/-- Source `rules.py`, `DayAndNightRules.evolve`: the returned fresh board. -/
def DayAndNightRules.evolve (b : Board) : Board := (evolveLoop dayAndNightAction b).2

/-- The value the loop leaves at an in-range cell `(row, col)`: the written
value when the variant's branch writes, the initial DEAD value otherwise. -/
def evolveValue (action : Nat → Nat → Option Nat) (b : Board) (row col : Nat) : Nat :=
  (action (b.get_cell (row : Int) (col : Int))
    (b.count_neighbors (row : Int) (col : Int))).getD 0

/-- Auxiliary for the loop characterization: the value at `(row, col)`
after the loop body ran there on top of buffer `g` — the written value, or
`g`'s existing value when the variant's branch performs no write. -/
def writeOrKeep (action : Nat → Nat → Option Nat) (b : Board)
    (g : List (List Nat)) (row col : Nat) : Nat :=
  (action (b.get_cell (row : Int) (col : Int))
    (b.count_neighbors (row : Int) (col : Int))).getD (cellAt g row col)

/-!
## Simulator (`simulator.py`)

`Simulator.run` and `Simulator.run_until_stable` are embedded as functions
of the active rule's `evolve` (the simulator stores `rule_class` looked up
from the registry and only ever calls `rule_class.evolve`), the current
board, and the loop arguments.  `run`'s optional per-generation callback
and `save_history` flag do not affect the returned board (the callback's
return value is discarded and `self.history` is never read by `run`), so
they are not part of the embedding.
-/

/-- Source `exceptions.py` / `simulator.py`: `SimulationOverflowError`, raised by
`run` when `generations` exceeds the ceiling. -/
inductive SimulationOverflowError where
  | overflow
  deriving Repr, DecidableEq

/-- Source `Simulator.max_generations`, set in `Simulator.__init__`. -/
def Simulator.maxGenerations : Nat := 10000

/-- The `for gen in range(generations)` loop of `simulator.py`,
`Simulator.run`: each iteration replaces the board with
`rule_class.evolve(board)` (that is `step()`), then breaks out of the loop
if `count_alive() == 0`. -/
def Simulator.runAux (rule : Board → Board) : Board → Nat → Board
  | b, 0 => b
  | b, n + 1 =>
    let b' := rule b
    if b'.count_alive = 0 then b' else Simulator.runAux rule b' n

/-- Source `simulator.py`, `Simulator.run`: raises `SimulationOverflowError` when
`generations > self.max_generations`, otherwise runs the loop and returns
the final board. -/
def Simulator.run (rule : Board → Board) (b : Board) (generations : Nat) :
    Except SimulationOverflowError Board :=
  if Simulator.maxGenerations < generations then
    .error .overflow
  else
    .ok (Simulator.runAux rule b generations)

/-- The classification string returned by `run_until_stable`:
`"extinction"`, `"still_life"`, `f"oscillator_period_{period}"` or
`"max_generations_reached"` (the four string families are distinct, so an
inductive type models them faithfully). -/
inductive StabilityResult where
  | extinction
  | stillLife
  | oscillator (period : Nat)
  | maxGenerationsReached
  deriving Repr, DecidableEq

/-- Python slice `l[-100:]` generalized: the last `n` elements. -/
def lastN (n : Nat) {α : Type} (l : List α) : List α :=
  l.drop (l.length - n)

/-- The `for i, state in enumerate(previous_states[-100:])` scan of
`run_until_stable`: index of the first entry equal to `g`, counting from
`i`. -/
def oscanAux (g : List (List Nat)) : List (List (List Nat)) → Nat → Option Nat
  | [], _ => none
  | s :: rest, i => if s = g then some i else oscanAux g rest (i + 1)

/-- The `for gen in range(max_generations)` loop of `simulator.py`,
`Simulator.run_until_stable`, with `states` the accumulated
`previous_states` list, `gen` the loop counter and `remaining` the number
of iterations left.  Each iteration snapshots `prev_grid`, steps, then
checks extinction, still life, and (on generations with
`gen % check_period == 0`) scans the current grid against
`previous_states[-100:]`, returning period `len(previous_states) - i` on a
match and appending the current grid's copy otherwise.  (`check_period`
is `Nat`; the source would raise `ZeroDivisionError` on `check_period = 0`,
a call the spec never makes: its stated signature is `checkPeriod = 1`.) -/
def Simulator.runUntilStableAux (rule : Board → Board) (checkPeriod : Nat) :
    Board → List (List (List Nat)) → Nat → Nat → Board × StabilityResult
  | b, _, _, 0 => (b, .maxGenerationsReached)
  | b, states, gen, remaining + 1 =>
    let prevGrid := b.grid
    let b' := rule b
    if b'.count_alive = 0 then (b', .extinction)
    else if b'.grid = prevGrid then (b', .stillLife)
    else if gen % checkPeriod = 0 then
      match oscanAux b'.grid (lastN 100 states) 0 with
      | some i => (b', .oscillator (states.length - i))
      | none =>
        Simulator.runUntilStableAux rule checkPeriod b' (states ++ [b'.grid])
          (gen + 1) remaining
    else
      Simulator.runUntilStableAux rule checkPeriod b' states (gen + 1) remaining

/-- Source `simulator.py`, `Simulator.run_until_stable`: starts the loop with
`previous_states = []` and `gen = 0`. -/
def Simulator.run_until_stable (rule : Board → Board) (b : Board)
    (maxGenerations : Nat) (checkPeriod : Nat) : Board × StabilityResult :=
  Simulator.runUntilStableAux rule checkPeriod b [] 0 maxGenerations

/-- Spec-side restatement of the oscillation bookkeeping, following the
claim's words: the comparison set is kept as an explicit sliding window
whose oldest entry is discarded once the window exceeds 100 entries, and
`total` counts the snapshots recorded so far; on a match at window index
`i` the period is `total - i`.  Everything else mirrors
`runUntilStableAux`. -/
def Simulator.runUntilStableSpecAux (rule : Board → Board) (checkPeriod : Nat) :
    Board → List (List (List Nat)) → Nat → Nat → Nat → Board × StabilityResult
  | b, _, _, _, 0 => (b, .maxGenerationsReached)
  | b, window, total, gen, remaining + 1 =>
    let prevGrid := b.grid
    let b' := rule b
    if b'.count_alive = 0 then (b', .extinction)
    else if b'.grid = prevGrid then (b', .stillLife)
    else if gen % checkPeriod = 0 then
      match oscanAux b'.grid window 0 with
      | some i => (b', .oscillator (total - i))
      | none =>
        let w := window ++ [b'.grid]
        let w' := if 100 < w.length then w.drop 1 else w
        Simulator.runUntilStableSpecAux rule checkPeriod b' w' (total + 1)
          (gen + 1) remaining
    else
      Simulator.runUntilStableSpecAux rule checkPeriod b' window total
        (gen + 1) remaining

/-- Spec-side `run_until_stable`: empty window, zero snapshots recorded. -/
def Simulator.runUntilStableSpec (rule : Board → Board) (b : Board)
    (maxGenerations : Nat) (checkPeriod : Nat) : Board × StabilityResult :=
  Simulator.runUntilStableSpecAux rule checkPeriod b [] 0 0 maxGenerations

/-!
## Rule registry (`metaprogramming.py`)

`RuleRegistry._rules` is a Python `dict` keyed by rule name; Python dicts
preserve insertion order, and assigning to an existing key replaces the
value while keeping the key's original position.  The dict is embedded as
an insertion-ordered association list (generic in the stored rule value),
and `register` as the dict assignment `cls._rules[name] = rule_class`.
-/

namespace RuleRegistry

variable {α : Type}

/-- Python dict assignment on an insertion-ordered association list:
replace in place if the key is present, append otherwise. -/
def dictSet : List (String × α) → String → α → List (String × α)
  | [], k, v => [(k, v)]
  | (k', v') :: rest, k, v =>
    if k' = k then (k, v) :: rest else (k', v') :: dictSet rest k v

/-- Source `metaprogramming.py`, `RuleRegistry.register` (the effect of the
returned decorator, `cls._rules[name] = rule_class`; the decorator raises
nothing and returns the class unchanged). -/
def register (reg : List (String × α)) (name : String) (rule : α) :
    List (String × α) :=
  dictSet reg name rule

/-- Source `metaprogramming.py`, `RuleRegistry.list_rules`:
`list(cls._rules.keys())`. -/
def list_rules (reg : List (String × α)) : List String :=
  reg.map Prod.fst

/-- First-match lookup (Python dict key lookup; well-defined because dict
keys are unique). -/
def lookupAssoc : List (String × α) → String → Option α
  | [], _ => none
  | (k', v') :: rest, k => if k' = k then some v' else lookupAssoc rest k

/-- Source `ValueError` raised by `get_rule` for an unknown name, carrying the
requested name and the known names. -/
inductive GetRuleError where
  | notFound (name : String) (available : List String)

/-- Source `metaprogramming.py`, `RuleRegistry.get_rule`: raises for an unknown
name, else returns the stored rule. -/
def get_rule (reg : List (String × α)) (name : String) : Except GetRuleError α :=
  match lookupAssoc reg name with
  | some v => .ok v
  | none => .error (.notFound name (list_rules reg))

end RuleRegistry

/-!
## Pattern codec (`pattern_parser.py`)

A Python `str` is embedded as its list of characters, so
`content.split('\n')`, `line.rstrip()` and `enumerate(line)` become
functions on `List Char`.  The saver's `f.write(...)` calls concatenate
onto the file's content.
-/

namespace PatternCodec

/-- The characters stripped by Python's default `str.rstrip()`. -/
def pythonWS (c : Char) : Bool :=
  c = ' ' ∨ c = '\t' ∨ c = '\n' ∨ c = '\r' ∨ c = '\x0b' ∨ c = '\x0c'

/-- Python `line.rstrip()`. -/
def rstrip (l : List Char) : List Char :=
  (l.reverse.dropWhile pythonWS).reverse

/-- Python `content.split('\n')` (keeps empty segments, including a
trailing one when the content ends in a newline). -/
def splitOnNl : List Char → List (List Char)
  | [] => [[]]
  | c :: rest =>
    if c = '\n' then [] :: splitOnNl rest
    else
      match splitOnNl rest with
      | [] => [[c]]
      | line :: more => (c :: line) :: more

/-- Source `pattern_parser.py`, `_parse_plaintext` inner loop
`for col, char in enumerate(line)`: collect `(row, col)` for each
character in `('O', '*', '1')`, `col` counting from the given start. -/
def cellsOfLineAux (row : Nat) : List Char → Nat → List (Nat × Nat)
  | [], _ => []
  | ch :: rest, col =>
    (if ch = 'O' ∨ ch = '*' ∨ ch = '1' then [(row, col)] else []) ++
      cellsOfLineAux row rest (col + 1)

/-- Source `pattern_parser.py`, `_parse_plaintext` outer loop
`for row, line in enumerate(lines)`: `row` counts every line, comment
lines included; a line whose `rstrip()` starts with `#` only updates the
name/comment metadata (which does not feed into `cells`) and is otherwise
skipped. -/
def plaintextCellsAux : List (List Char) → Nat → List (Nat × Nat)
  | [], _ => []
  | line :: rest, row =>
    let l := rstrip line
    if l.head? = some '#' then plaintextCellsAux rest (row + 1)
    else cellsOfLineAux row l 0 ++ plaintextCellsAux rest (row + 1)

/-- Source `pattern_parser.py`, `PatternParseError` (no alive cells found). -/
inductive PatternParseError where
  | noAliveCells
  deriving Repr, DecidableEq

/-- Source `pattern_parser.py`, `_parse_plaintext`, restricted to the `cells`
entry of the returned dictionary (`name`, `comments` and `format` are
metadata the round-trip claim does not mention): raises
`PatternParseError` when no cell was collected. -/
def parsePlaintextCells (content : List Char) :
    Except PatternParseError (List (Nat × Nat)) :=
  let cells := plaintextCellsAux (splitOnNl content) 0
  if cells = [] then .error .noAliveCells else .ok cells

/-- Decimal digit character, for `str(n)`. -/
def digitChar (d : Nat) : Char :=
  match d with
  | 0 => '0' | 1 => '1' | 2 => '2' | 3 => '3' | 4 => '4'
  | 5 => '5' | 6 => '6' | 7 => '7' | 8 => '8' | _ => '9'

/-- Decimal digits of `n`, most significant first, with explicit recursion
fuel (each step divides `n` by 10, so any fuel above the digit count — in
particular `n + 1` — reproduces the untruncated numeral). -/
def natReprAux : Nat → Nat → List Char
  | 0, _ => []
  | fuel + 1, n =>
    if n < 10 then [digitChar n]
    else natReprAux fuel (n / 10) ++ [digitChar (n % 10)]

/-- Python `str(n)` for a non-negative integer. -/
def natRepr (n : Nat) : List Char :=
  natReprAux (n + 1) n

/-- One grid row of `save_pattern`:
`''.join('O' if cell else '.' for cell in row)`. -/
def lineOfRow (row : List Nat) : List Char :=
  row.map (fun cell => if cell ≠ 0 then 'O' else '.')

/-- Source `pattern_parser.py`, `PatternParser.save_pattern`: the full content
written to the file (each `f.write` appends; every written line ends in
`'\n'`).  Header: optional `#N <name>` line, one `# <comment>` line per
comment, `# Generation: <n>`, `# Alive cells: <n>`, a bare `#` line; then
one line per grid row. -/
def save_pattern (b : Board) (name : Option (List Char))
    (comments : List (List Char)) : List Char :=
  (match name with
   | some nm => "#N ".toList ++ nm ++ ['\n']
   | none => []) ++
  (comments.map (fun comment => "# ".toList ++ comment ++ ['\n'])).flatten ++
  ("# Generation: ".toList ++ natRepr b.generation ++ ['\n']) ++
  ("# Alive cells: ".toList ++ natRepr b.count_alive ++ ['\n']) ++
  ("#".toList ++ ['\n']) ++
  (b.grid.map (fun row => lineOfRow row ++ ['\n'])).flatten

/-- Live cells of one grid row, `col` counting from the given start:
the coordinates `save_pattern` renders as `'O'`. -/
def liveRowAux (r : Nat) : List Nat → Nat → List (Nat × Nat)
  | [], _ => []
  | v :: rest, c =>
    (if v ≠ 0 then [(r, c)] else []) ++ liveRowAux r rest (c + 1)

/-- Live cells of a grid in row-major order, rows counting from `r`. -/
def liveCellsAux : List (List Nat) → Nat → List (Nat × Nat)
  | [], _ => []
  | row :: rest, r => liveRowAux r row 0 ++ liveCellsAux rest (r + 1)

/-- The live-cell coordinates of a board, in the row-major order both the
saver and the parser traverse. -/
def liveCells (b : Board) : List (Nat × Nat) :=
  liveCellsAux b.grid 0

end PatternCodec

end GameOfLife

namespace GameOfLife

/-- C4: `get_cell` outside the board is `0` (DEAD), for any board and any
integer coordinates, by the guard in the source; the function is total, so
no error can be raised. -/
theorem get_cell_out_of_bounds (b : Board) (row col : Int)
    (h : ¬(0 ≤ row ∧ row < (b.height : Int) ∧ 0 ≤ col ∧ col < (b.width : Int))) :
    b.get_cell row col = 0 := by
  unfold Board.get_cell
  simp [h]

/-- C4 witness: a concrete 2×2 board read at (-1, 5). -/
theorem get_cell_out_of_bounds_witness :
    (Board.mk 2 2 [[1, 1], [1, 0]] 0).get_cell (-1) 5 = 0 :=
  get_cell_out_of_bounds (Board.mk 2 2 [[1, 1], [1, 0]] 0) (-1) 5 (by decide)

/-! ### Cell-buffer lemmas -/

theorem getD_map_range {α : Type} (f : Nat → α) (n i : Nat) (d : α) :
    ((List.range n).map f).getD i d = if i < n then f i else d := by
  rcases Nat.lt_or_ge i n with h | h
  · rw [List.getD_eq_getElem?_getD, List.getElem?_map, List.getElem?_range h]
    simp [h]
  · rw [List.getD_eq_getElem?_getD, List.getElem?_map,
      List.getElem?_eq_none (by simpa using h)]
    simp [Nat.not_lt.mpr h]

theorem cellAt_zerosGrid (h w r c : Nat) : cellAt (zerosGrid h w) r c = 0 := by
  unfold cellAt zerosGrid
  rw [getD_map_range]
  rcases Nat.lt_or_ge r h with hr | hr
  · rw [if_pos hr, getD_map_range]
    split <;> rfl
  · rw [if_neg (Nat.not_lt.mpr hr)]
    rfl

theorem gridShape_zerosGrid (h w : Nat) : gridShape (zerosGrid h w) h w := by
  refine ⟨by simp [zerosGrid], ?_⟩
  intro row hrow
  simp only [zerosGrid, List.mem_map] at hrow
  obtain ⟨i, _, rfl⟩ := hrow
  simp

theorem getD_mem_of_lt {α : Type} (l : List α) (i : Nat) (d : α) (h : i < l.length) :
    l.getD i d ∈ l := by
  rw [List.getD_eq_getElem?_getD, List.getElem?_eq_getElem h]
  exact List.getElem_mem h

theorem gridShape_setCellRaw (g : List (List Nat)) (h w r c v : Nat)
    (hs : gridShape g h w) : gridShape (setCellRaw g r c v) h w := by
  obtain ⟨hlen, hrows⟩ := hs
  rcases Nat.lt_or_ge r g.length with hr | hr
  · refine ⟨by simpa [setCellRaw] using hlen, ?_⟩
    intro row hrow
    rcases List.mem_or_eq_of_mem_set hrow with hmem | rfl
    · exact hrows row hmem
    · rw [List.length_set]
      exact hrows _ (getD_mem_of_lt g r [] hr)
  · unfold setCellRaw
    rw [List.set_eq_of_length_le hr]
    exact ⟨hlen, hrows⟩

theorem getD_set_self {α : Type} (l : List α) (i : Nat) (a d : α)
    (h : i < l.length) : (l.set i a).getD i d = a := by
  rw [List.getD_eq_getElem?_getD (l.set i a) i d, List.getElem?_set]
  simp [h]

theorem getD_set_ne {α : Type} (l : List α) (i j : Nat) (a d : α)
    (h : i ≠ j) : (l.set i a).getD j d = l.getD j d := by
  rw [List.getD_eq_getElem?_getD (l.set i a) j d, List.getElem?_set, if_neg h,
    ← List.getD_eq_getElem?_getD]

theorem cellAt_setCellRaw_eq (g : List (List Nat)) (r c v : Nat)
    (hr : r < g.length) (hc : c < (g.getD r []).length) :
    cellAt (setCellRaw g r c v) r c = v := by
  unfold cellAt setCellRaw
  rw [getD_set_self g r _ [] hr, getD_set_self _ c _ 0 (by simpa using hc)]

theorem cellAt_setCellRaw_ne (g : List (List Nat)) (r c v r' c' : Nat)
    (hne : r' ≠ r ∨ c' ≠ c) :
    cellAt (setCellRaw g r c v) r' c' = cellAt g r' c' := by
  unfold cellAt setCellRaw
  rcases Nat.decEq r' r with hr | hr
  · -- r' ≠ r : a different row is read, untouched by the set
    rw [getD_set_ne g r r' _ [] (fun hx => hr hx.symm)]
  · -- r' = r, so c' ≠ c : the same row is read, at an untouched column
    subst hr
    have hc : c' ≠ c := by
      rcases hne with h | h
      · exact absurd rfl h
      · exact h
    rcases Nat.lt_or_ge r' g.length with hlt | hge
    · rw [getD_set_self g r' _ [] hlt, getD_set_ne _ c c' _ 0 (fun hx => hc hx.symm)]
    · rw [List.set_eq_of_length_le hge]

/-! ### Evolve-loop lemmas -/

theorem foldl_invariant {α β : Type} (f : β → α → β) (P : β → Prop)
    (hstep : ∀ s x, P s → P (f s x)) :
    ∀ (l : List α) (init : β), P init → P (l.foldl f init) := by
  intro l
  induction l with
  | nil => intro init h; exact h
  | cons x xs ih => intro init h; exact ih _ (hstep _ _ h)

/-- The loop-body invariant: every iteration leaves the input board (first
component) untouched, preserves the fresh board's dimensions and
generation, and preserves the buffer shape. -/
def evolveInv (b : Board) (st : Board × Board) : Prop :=
  st.1 = b ∧ st.2.width = b.width ∧ st.2.height = b.height ∧
    st.2.generation = b.generation + 1 ∧ gridShape st.2.grid b.height b.width

theorem evolveBody_eq (action : Nat → Nat → Option Nat) (st : Board × Board)
    (row col : Nat) :
    evolveBody action st row col =
      match action (st.1.get_cell (row : Int) (col : Int))
          (st.1.count_neighbors (row : Int) (col : Int)) with
      | some v => (st.1, { st.2 with grid := setCellRaw st.2.grid row col v })
      | none => st := rfl

theorem evolveBody_inv (action : Nat → Nat → Option Nat) (b : Board)
    (st : Board × Board) (row col : Nat) (h : evolveInv b st) :
    evolveInv b (evolveBody action st row col) := by
  obtain ⟨h1, h2, h3, h4, h5⟩ := h
  rw [evolveBody_eq]
  rcases action (st.1.get_cell (row : Int) (col : Int))
      (st.1.count_neighbors (row : Int) (col : Int)) with _ | v
  · exact ⟨h1, h2, h3, h4, h5⟩
  · exact ⟨h1, h2, h3, h4, gridShape_setCellRaw _ _ _ _ _ _ h5⟩

theorem evolveInnerFold_inv (action : Nat → Nat → Option Nat) (b : Board)
    (row : Nat) (l : List Nat) (st : Board × Board) (h : evolveInv b st) :
    evolveInv b (l.foldl (fun s col => evolveBody action s row col) st) :=
  foldl_invariant _ _ (fun s x hs => evolveBody_inv action b s row x hs) l st h

theorem evolveLoop_inv (action : Nat → Nat → Option Nat) (b : Board) :
    evolveInv b (evolveLoop action b) := by
  unfold evolveLoop
  refine foldl_invariant _ (evolveInv b)
    (fun s row hs => evolveInnerFold_inv action b row _ s hs) _ _ ?_
  exact ⟨rfl, rfl, rfl, rfl, gridShape_zerosGrid b.height b.width⟩

theorem evolveBody_snd_grid (action : Nat → Nat → Option Nat) (b : Board)
    (st : Board × Board) (row col : Nat) (hfst : st.1 = b) :
    (evolveBody action st row col).2.grid =
      match action (b.get_cell (row : Int) (col : Int))
          (b.count_neighbors (row : Int) (col : Int)) with
      | some v => setCellRaw st.2.grid row col v
      | none => st.2.grid := by
  subst hfst
  rw [evolveBody_eq]
  rcases action (st.1.get_cell (row : Int) (col : Int))
      (st.1.count_neighbors (row : Int) (col : Int)) with _ | v <;> rfl

/-- Pointwise effect of one full row of the loop (columns `0..w-1` of row
`row`): cells of that initial segment hold their decided value, every
other cell is untouched. -/
theorem evolveInner_cell (action : Nat → Nat → Option Nat) (b : Board)
    (row : Nat) (hrow : row < b.height) :
    ∀ (w : Nat), w ≤ b.width → ∀ (st : Board × Board), evolveInv b st →
      ∀ (r c : Nat),
      cellAt ((List.range w).foldl
          (fun s col => evolveBody action s row col) st).2.grid r c =
        if r = row ∧ c < w then writeOrKeep action b st.2.grid r c
        else cellAt st.2.grid r c := by
  intro w
  induction w with
  | zero =>
    intro _ st _ r c
    simp [List.range_zero]
  | succ w ih =>
    intro hw st hst r c
    have hw' : w ≤ b.width := Nat.le_of_succ_le hw
    rw [List.range_succ, List.foldl_append]
    set res := (List.range w).foldl (fun s col => evolveBody action s row col) st
      with hres
    have hinv : evolveInv b res := evolveInnerFold_inv action b row _ st hst
    obtain ⟨hfst, hwid, hhei, hgen, hlen, hrows⟩ := hinv
    have hcell := ih hw' st hst
    have hgrid := evolveBody_snd_grid action b res row w hfst
    have hrowlen : (res.2.grid.getD row []).length = b.width :=
      hrows _ (getD_mem_of_lt _ row [] (by rw [hlen]; exact hrow))
    rcases ha : action (b.get_cell (row : Int) (w : Int))
        (b.count_neighbors (row : Int) (w : Int)) with _ | v
    · -- no write at (row, w): the state is unchanged by this iteration
      rw [List.foldl_cons, List.foldl_nil]
      have : (evolveBody action res row w).2.grid = res.2.grid := by
        rw [hgrid, ha]
      rw [this, hcell r c]
      by_cases hcond : r = row ∧ c < w + 1
      · obtain ⟨hr, hc⟩ := hcond
        subst hr
        rcases Nat.lt_or_ge c w with hcw | hcw
        · rw [if_pos ⟨rfl, hcw⟩, if_pos ⟨rfl, Nat.lt_succ_of_lt hcw⟩]
        · have hceq : c = w := Nat.le_antisymm (Nat.lt_succ_iff.mp hc) hcw
          subst hceq
          rw [if_neg (fun hx => Nat.lt_irrefl c hx.2), if_pos ⟨rfl, Nat.lt_succ_self c⟩]
          unfold writeOrKeep
          rw [ha]
          rfl
      · have hcond' : ¬(r = row ∧ c < w) := by
          intro hx
          exact hcond ⟨hx.1, Nat.lt_succ_of_lt hx.2⟩
        rw [if_neg hcond', if_neg hcond]
    · -- write v at (row, w)
      rw [List.foldl_cons, List.foldl_nil]
      have hg : (evolveBody action res row w).2.grid = setCellRaw res.2.grid row w v := by
        rw [hgrid, ha]
      rw [hg]
      by_cases hat : r = row ∧ c = w
      · obtain ⟨hr, hc⟩ := hat
        subst hr; subst hc
        rw [cellAt_setCellRaw_eq res.2.grid r c v
          (by rw [hlen]; exact hrow) (by rw [hrowlen]; exact hw)]
        rw [if_pos ⟨rfl, Nat.lt_succ_self c⟩]
        unfold writeOrKeep
        rw [ha]
        rfl
      · have hne : r ≠ row ∨ c ≠ w := by
          by_contra hx
          push_neg at hx
          exact hat ⟨hx.1, hx.2⟩
        rw [cellAt_setCellRaw_ne res.2.grid row w v r c hne, hcell r c]
        by_cases hcond : r = row ∧ c < w + 1
        · obtain ⟨hr, hc⟩ := hcond
          subst hr
          have hcw : c < w := by
            rcases Nat.lt_succ_iff_lt_or_eq.mp hc with h | h
            · exact h
            · exact absurd ⟨rfl, h⟩ hat
          rw [if_pos ⟨rfl, hcw⟩, if_pos ⟨rfl, Nat.lt_succ_of_lt hcw⟩]
        · have hcond' : ¬(r = row ∧ c < w) := by
            intro hx
            exact hcond ⟨hx.1, Nat.lt_succ_of_lt hx.2⟩
          rw [if_neg hcond', if_neg hcond]

/-- Pointwise effect of the first `hh` rows of the loop. -/
theorem evolveOuter_cell (action : Nat → Nat → Option Nat) (b : Board) :
    ∀ (hh : Nat), hh ≤ b.height → ∀ (st : Board × Board), evolveInv b st →
      ∀ (r c : Nat),
      cellAt ((List.range hh).foldl
          (fun s row => (List.range b.width).foldl
            (fun s col => evolveBody action s row col) s) st).2.grid r c =
        if r < hh ∧ c < b.width then writeOrKeep action b st.2.grid r c
        else cellAt st.2.grid r c := by
  intro hh
  induction hh with
  | zero =>
    intro _ st _ r c
    simp [List.range_zero]
  | succ hh ih =>
    intro hle st hst r c
    have hle' : hh ≤ b.height := Nat.le_of_succ_le hle
    have hrow : hh < b.height := hle
    rw [List.range_succ, List.foldl_append, List.foldl_cons, List.foldl_nil]
    set res := (List.range hh).foldl
      (fun s row => (List.range b.width).foldl
        (fun s col => evolveBody action s row col) s) st with hres
    have hinvres : evolveInv b res :=
      foldl_invariant _ _ (fun s x hs => evolveInnerFold_inv action b x _ s hs) _ _ hst
    have houter := ih hle' st hst
    have hinner :=
      evolveInner_cell action b hh hrow b.width (Nat.le_refl _) res hinvres r c
    rw [hinner]
    by_cases hc : c < b.width
    · by_cases hr1 : r = hh
      · subst hr1
        rw [if_pos ⟨rfl, hc⟩, if_pos ⟨Nat.lt_succ_self r, hc⟩]
        unfold writeOrKeep
        rw [houter r c, if_neg (fun hx => Nat.lt_irrefl r hx.1)]
      · rw [if_neg (fun hx => hr1 hx.1), houter r c]
        by_cases hr2 : r < hh
        · rw [if_pos ⟨hr2, hc⟩, if_pos ⟨Nat.lt_succ_of_lt hr2, hc⟩]
        · have hnot : ¬r < hh + 1 := by
            intro hx
            rcases Nat.lt_succ_iff_lt_or_eq.mp hx with h | h
            · exact hr2 h
            · exact hr1 h
          rw [if_neg (fun hx => hr2 hx.1), if_neg (fun hx => hnot hx.1)]
    · rw [if_neg (fun hx => hc hx.2), houter r c,
        if_neg (fun hx => hc hx.2), if_neg (fun hx => hc hx.2)]

theorem evolveLoop_eq_fold (action : Nat → Nat → Option Nat) (b : Board) :
    evolveLoop action b =
      (List.range b.height).foldl
        (fun s row => (List.range b.width).foldl
          (fun s col => evolveBody action s row col) s)
        (b, Board.mk b.width b.height (zerosGrid b.height b.width)
          (b.generation + 1)) := rfl

/-- The cell buffer of the board `evolve` returns, pointwise: each
in-range cell holds the value the variant's branch decided for it. -/
theorem evolveLoop_cell (action : Nat → Nat → Option Nat) (b : Board)
    (r c : Nat) (hr : r < b.height) (hc : c < b.width) :
    cellAt (evolveLoop action b).2.grid r c = evolveValue action b r c := by
  rw [evolveLoop_eq_fold]
  have hinit : evolveInv b
      (b, Board.mk b.width b.height (zerosGrid b.height b.width) (b.generation + 1)) :=
    ⟨rfl, rfl, rfl, rfl, gridShape_zerosGrid b.height b.width⟩
  rw [evolveOuter_cell action b b.height (Nat.le_refl _) _ hinit r c, if_pos ⟨hr, hc⟩]
  unfold writeOrKeep evolveValue
  rw [cellAt_zerosGrid]

/-- Source `get_cell` on the board `evolve` returns, for in-range coordinates. -/
theorem evolve_get_cell (action : Nat → Nat → Option Nat) (b : Board)
    (r c : Nat) (hr : r < b.height) (hc : c < b.width) :
    Board.get_cell (evolveLoop action b).2 (r : Int) (c : Int) =
      evolveValue action b r c := by
  obtain ⟨-, hwid, hhei, -, -, -⟩ := evolveLoop_inv action b
  unfold Board.get_cell
  rw [hwid, hhei,
    if_pos ⟨Int.ofNat_nonneg r, by exact_mod_cast hr, Int.ofNat_nonneg c, by exact_mod_cast hc⟩]
  simpa using evolveLoop_cell action b r c hr hc

/-- C1: for every grid and every rule variant, the board `evolve` returns
holds ALIVE at an in-range cell exactly when the variant's survive set
(alive cell) or birth set (dead cell) contains the live-neighbor count —
survive/birth `{2,3}`/`{3}` for standard, `{2,3}`/`{3,6}` for high-life,
`{3,4,6,7,8}`/`{3,6,7,8}` for day-and-night — and holds DEAD (0) in every
other case. -/
theorem evolve_rule_tables (b : Board) (r c : Nat)
    (hr : r < b.height) (hc : c < b.width) :
    ((StandardRules.evolve b).get_cell (r : Int) (c : Int) =
      if (b.get_cell (r : Int) (c : Int) = 1 ∧
            (b.count_neighbors (r : Int) (c : Int) = 2 ∨
             b.count_neighbors (r : Int) (c : Int) = 3)) ∨
         (b.get_cell (r : Int) (c : Int) ≠ 1 ∧
            b.count_neighbors (r : Int) (c : Int) = 3)
      then 1 else 0) ∧
    ((HighLifeRules.evolve b).get_cell (r : Int) (c : Int) =
      if (b.get_cell (r : Int) (c : Int) = 1 ∧
            (b.count_neighbors (r : Int) (c : Int) = 2 ∨
             b.count_neighbors (r : Int) (c : Int) = 3)) ∨
         (b.get_cell (r : Int) (c : Int) ≠ 1 ∧
            (b.count_neighbors (r : Int) (c : Int) = 3 ∨
             b.count_neighbors (r : Int) (c : Int) = 6))
      then 1 else 0) ∧
    ((DayAndNightRules.evolve b).get_cell (r : Int) (c : Int) =
      if (b.get_cell (r : Int) (c : Int) = 1 ∧
            (b.count_neighbors (r : Int) (c : Int) = 3 ∨
             b.count_neighbors (r : Int) (c : Int) = 4 ∨
             b.count_neighbors (r : Int) (c : Int) = 6 ∨
             b.count_neighbors (r : Int) (c : Int) = 7 ∨
             b.count_neighbors (r : Int) (c : Int) = 8)) ∨
         (b.get_cell (r : Int) (c : Int) ≠ 1 ∧
            (b.count_neighbors (r : Int) (c : Int) = 3 ∨
             b.count_neighbors (r : Int) (c : Int) = 6 ∨
             b.count_neighbors (r : Int) (c : Int) = 7 ∨
             b.count_neighbors (r : Int) (c : Int) = 8))
      then 1 else 0) := by
  refine ⟨?_, ?_, ?_⟩
  · unfold StandardRules.evolve
    rw [evolve_get_cell stdAction b r c hr hc]
    unfold evolveValue stdAction
    by_cases h1 : b.get_cell (r : Int) (c : Int) = 1
    · by_cases h2 : b.count_neighbors (r : Int) (c : Int) = 2 ∨
          b.count_neighbors (r : Int) (c : Int) = 3 <;>
        simp [h1, h2]
    · by_cases h2 : b.count_neighbors (r : Int) (c : Int) = 3 <;>
        simp [h1, h2]
  · unfold HighLifeRules.evolve
    rw [evolve_get_cell highLifeAction b r c hr hc]
    unfold evolveValue highLifeAction
    by_cases h1 : b.get_cell (r : Int) (c : Int) = 1
    · by_cases h2 : b.count_neighbors (r : Int) (c : Int) = 2 ∨
          b.count_neighbors (r : Int) (c : Int) = 3 <;>
        simp [h1, h2]
    · by_cases h2 : b.count_neighbors (r : Int) (c : Int) = 3 ∨
          b.count_neighbors (r : Int) (c : Int) = 6 <;>
        simp [h1, h2]
  · unfold DayAndNightRules.evolve
    rw [evolve_get_cell dayAndNightAction b r c hr hc]
    unfold evolveValue dayAndNightAction
    by_cases h1 : b.get_cell (r : Int) (c : Int) = 1
    · by_cases h2 : b.count_neighbors (r : Int) (c : Int) = 3 ∨
          b.count_neighbors (r : Int) (c : Int) = 4 ∨
          b.count_neighbors (r : Int) (c : Int) = 6 ∨
          b.count_neighbors (r : Int) (c : Int) = 7 ∨
          b.count_neighbors (r : Int) (c : Int) = 8 <;>
        simp [h1, h2]
    · by_cases h2 : b.count_neighbors (r : Int) (c : Int) = 3 ∨
          b.count_neighbors (r : Int) (c : Int) = 6 ∨
          b.count_neighbors (r : Int) (c : Int) = 7 ∨
          b.count_neighbors (r : Int) (c : Int) = 8 <;>
        simp [h1, h2]

/-- C1 witness: the rule tables evaluated at cell (1, 1) of a concrete
3×3 board (a dead center cell with 3 live neighbors). -/
theorem evolve_rule_tables_witness :
    ((StandardRules.evolve (Board.mk 3 3 [[1, 1, 0], [0, 0, 0], [1, 0, 0]] 0)).get_cell
        (1 : Int) (1 : Int) =
      if ((Board.mk 3 3 [[1, 1, 0], [0, 0, 0], [1, 0, 0]] 0).get_cell (1 : Int) (1 : Int) = 1 ∧
            ((Board.mk 3 3 [[1, 1, 0], [0, 0, 0], [1, 0, 0]] 0).count_neighbors (1 : Int) (1 : Int) = 2 ∨
             (Board.mk 3 3 [[1, 1, 0], [0, 0, 0], [1, 0, 0]] 0).count_neighbors (1 : Int) (1 : Int) = 3)) ∨
         ((Board.mk 3 3 [[1, 1, 0], [0, 0, 0], [1, 0, 0]] 0).get_cell (1 : Int) (1 : Int) ≠ 1 ∧
            (Board.mk 3 3 [[1, 1, 0], [0, 0, 0], [1, 0, 0]] 0).count_neighbors (1 : Int) (1 : Int) = 3)
      then 1 else 0) := by
  have h := (evolve_rule_tables (Board.mk 3 3 [[1, 1, 0], [0, 0, 0], [1, 0, 0]] 0) 1 1
    (by decide) (by decide)).1
  exact h

/-- C6: for every grid and every rule variant, `evolve` leaves the input
board object exactly as it was: the first component of the threaded
(input, fresh output) pair — the input object after all of the loop's
reads and writes — equals the input, cells, dimensions and generation
included. -/
theorem evolve_input_unchanged (b : Board) :
    (evolveLoop stdAction b).1 = b ∧ (evolveLoop highLifeAction b).1 = b ∧
      (evolveLoop dayAndNightAction b).1 = b :=
  ⟨(evolveLoop_inv stdAction b).1, (evolveLoop_inv highLifeAction b).1,
    (evolveLoop_inv dayAndNightAction b).1⟩

set_option maxRecDepth 40000 in
/-- C7: a 2×2 block of live cells in an otherwise empty 4×4 grid is a
still life of the standard rule: one and two applications of `evolve`
both reproduce the pattern (cell-buffer equality; `evolve` increments the
generation counter, so the pattern — the `grid` buffer — is what
repeats). -/
theorem block_still_life :
    (StandardRules.evolve (StandardRules.evolve
        (Board.mk 4 4 [[0, 0, 0, 0], [0, 1, 1, 0], [0, 1, 1, 0], [0, 0, 0, 0]] 0))).grid =
      (StandardRules.evolve
        (Board.mk 4 4 [[0, 0, 0, 0], [0, 1, 1, 0], [0, 1, 1, 0], [0, 0, 0, 0]] 0)).grid ∧
    (StandardRules.evolve
        (Board.mk 4 4 [[0, 0, 0, 0], [0, 1, 1, 0], [0, 1, 1, 0], [0, 0, 0, 0]] 0)).grid =
      (Board.mk 4 4 [[0, 0, 0, 0], [0, 1, 1, 0], [0, 1, 1, 0], [0, 0, 0, 0]] 0).grid := by
  constructor <;> decide

/-! ### Simulator lemmas -/

/-- Every built-in `evolve` stamps the output with `generation + 1`
(`new_board.generation = board.generation + 1` in `rules.py`). -/
theorem StandardRules.evolve_generation (b : Board) :
    (StandardRules.evolve b).generation = b.generation + 1 :=
  (evolveLoop_inv stdAction b).2.2.2.1

theorem runAux_generation (rule : Board → Board)
    (hrule : ∀ x, (rule x).generation = x.generation + 1) :
    ∀ (N : Nat) (b : Board),
      (Simulator.runAux rule b N).generation = b.generation + N ∨
      ((Simulator.runAux rule b N).count_alive = 0 ∧
        (Simulator.runAux rule b N).generation < b.generation + N) := by
  intro N
  induction N with
  | zero =>
    intro b
    left
    rfl
  | succ n ih =>
    intro b
    simp only [Simulator.runAux]
    by_cases hext : (rule b).count_alive = 0
    · rw [if_pos hext]
      cases n with
      | zero =>
        left
        rw [hrule b]
      | succ m =>
        right
        refine ⟨hext, ?_⟩
        rw [hrule b]
        omega
    · rw [if_neg hext]
      rcases ih (rule b) with h | ⟨h0, hlt⟩
      · left
        rw [h, hrule b]
        omega
      · right
        refine ⟨h0, ?_⟩
        rw [hrule b] at hlt
        omega

/-- C5: for every initial board and every `N` within the 10000 ceiling,
`run(generations=N)` (with a rule that stamps `generation + 1` per step,
as every rule variant of `rules.py` does) returns a board whose
`generation` is the initial generation plus `N` — unless the alive count
reached zero during the run, in which case the loop broke early and the
returned board carries the (smaller) generation count reached at
extinction, with zero alive cells. -/
theorem run_generation_count (rule : Board → Board) (b : Board) (N : Nat)
    (hrule : ∀ x, (rule x).generation = x.generation + 1)
    (hN : N ≤ Simulator.maxGenerations) :
    ∃ r, Simulator.run rule b N = .ok r ∧
      (r.generation = b.generation + N ∨
        (r.count_alive = 0 ∧ r.generation < b.generation + N)) := by
  refine ⟨Simulator.runAux rule b N, ?_, runAux_generation rule hrule N b⟩
  unfold Simulator.run
  rw [if_neg (Nat.not_lt.mpr hN)]

/-- C5 witness: a 1×1 dead board run for 2 generations goes extinct after
the first step, so the returned generation is 1 < 0 + 2. -/
theorem run_generation_count_witness :
    ∃ r, Simulator.run StandardRules.evolve (Board.mk 1 1 [[0]] 0) 2 = .ok r ∧
      (r.generation = (Board.mk 1 1 [[0]] 0).generation + 2 ∨
        (r.count_alive = 0 ∧
          r.generation < (Board.mk 1 1 [[0]] 0).generation + 2)) :=
  run_generation_count StandardRules.evolve (Board.mk 1 1 [[0]] 0) 2
    (fun x => StandardRules.evolve_generation x) (by decide)

/-- C8: `run` fails with `SimulationOverflowError` precisely when the
requested generations exceed the 10000 ceiling: `run(10001)` fails,
`run(N)` for any `N ≤ 10000` returns a board normally. -/
theorem run_overflow_exactly_above_ceiling (rule : Board → Board) (b : Board) :
    Simulator.run rule b 10001 = .error .overflow ∧
      (∀ N, N ≤ 10000 →
        Simulator.run rule b N = .ok (Simulator.runAux rule b N)) ∧
      (∀ N, Simulator.run rule b N = .error .overflow ↔ 10000 < N) := by
  refine ⟨rfl, ?_, ?_⟩
  · intro N hN
    unfold Simulator.run Simulator.maxGenerations
    rw [if_neg (Nat.not_lt.mpr hN)]
  · intro N
    unfold Simulator.run Simulator.maxGenerations
    by_cases h : 10000 < N
    · simp [h]
    · simp [h]

/-- C8 witness: the ceiling behavior at a concrete board, at 10001 and at
10000 generations. -/
theorem run_overflow_exactly_above_ceiling_witness :
    Simulator.run StandardRules.evolve (Board.mk 1 1 [[1]] 0) 10001 =
        .error .overflow ∧
      Simulator.run StandardRules.evolve (Board.mk 1 1 [[1]] 0) 10000 =
        .ok (Simulator.runAux StandardRules.evolve (Board.mk 1 1 [[1]] 0) 10000) :=
  ⟨(run_overflow_exactly_above_ceiling StandardRules.evolve
      (Board.mk 1 1 [[1]] 0)).1,
    (run_overflow_exactly_above_ceiling StandardRules.evolve
      (Board.mk 1 1 [[1]] 0)).2.1 10000 (by decide)⟩

/-! ### Stability-detection lemmas -/

/-- Appending one snapshot commutes with taking the last 100: the slice
`previous_states[-100:]` of the source behaves exactly like the claim's
sliding window that discards its oldest entry once it exceeds 100
entries. -/
theorem lastN_append_window (states : List (List (List Nat)))
    (g : List (List Nat)) :
    lastN 100 (states ++ [g]) =
      (if 100 < (lastN 100 states ++ [g]).length
       then (lastN 100 states ++ [g]).drop 1
       else lastN 100 states ++ [g]) := by
  unfold lastN
  have hlen : (states.drop (states.length - 100)).length =
      states.length - (states.length - 100) := List.length_drop _ _
  rcases Nat.lt_or_ge states.length 100 with hL | hL
  · have h1 : states.length - 100 = 0 := by omega
    have h2 : states.length + 1 - 100 = 0 := by omega
    rw [if_neg (by rw [List.length_append, hlen]; simp; omega)]
    simp only [List.length_append, List.length_singleton]
    rw [h1, h2]
    simp
  · have h1 : states.length - (states.length - 100) = 100 := by omega
    rw [if_pos (by rw [List.length_append, hlen, h1]; simp)]
    have hdrop1 : ((states.drop (states.length - 100)) ++ [g]).drop 1 =
        (states.drop (states.length - 100)).drop 1 ++ [g] :=
      List.drop_append_of_le_length (by rw [hlen, h1]; omega)
    rw [hdrop1, List.drop_drop]
    have h2 : (states ++ [g]).length - 100 = states.length - 100 + 1 := by
      rw [List.length_append]
      simp
      omega
    rw [h2, List.drop_append_of_le_length (by omega)]

theorem runUntilStableAux_succ (rule : Board → Board) (checkPeriod : Nat)
    (b : Board) (states : List (List (List Nat))) (gen n : Nat) :
    Simulator.runUntilStableAux rule checkPeriod b states gen (n + 1) =
      (if (rule b).count_alive = 0 then (rule b, .extinction)
       else if (rule b).grid = b.grid then (rule b, .stillLife)
       else if gen % checkPeriod = 0 then
         match oscanAux (rule b).grid (lastN 100 states) 0 with
         | some i => (rule b, .oscillator (states.length - i))
         | none =>
           Simulator.runUntilStableAux rule checkPeriod (rule b)
             (states ++ [(rule b).grid]) (gen + 1) n
       else
         Simulator.runUntilStableAux rule checkPeriod (rule b) states
           (gen + 1) n) := rfl

theorem runUntilStableSpecAux_succ (rule : Board → Board) (checkPeriod : Nat)
    (b : Board) (window : List (List (List Nat))) (total gen n : Nat) :
    Simulator.runUntilStableSpecAux rule checkPeriod b window total gen (n + 1) =
      (if (rule b).count_alive = 0 then (rule b, .extinction)
       else if (rule b).grid = b.grid then (rule b, .stillLife)
       else if gen % checkPeriod = 0 then
         match oscanAux (rule b).grid window 0 with
         | some i => (rule b, .oscillator (total - i))
         | none =>
           Simulator.runUntilStableSpecAux rule checkPeriod (rule b)
             (if 100 < (window ++ [(rule b).grid]).length
              then (window ++ [(rule b).grid]).drop 1
              else window ++ [(rule b).grid])
             (total + 1) (gen + 1) n
       else
         Simulator.runUntilStableSpecAux rule checkPeriod (rule b) window total
           (gen + 1) n) := rfl

theorem runUntilStableAux_eq_spec (rule : Board → Board) (checkPeriod : Nat) :
    ∀ (remaining : Nat) (b : Board) (states : List (List (List Nat))) (gen : Nat),
      Simulator.runUntilStableAux rule checkPeriod b states gen remaining =
        Simulator.runUntilStableSpecAux rule checkPeriod b (lastN 100 states)
          states.length gen remaining := by
  intro remaining
  induction remaining with
  | zero =>
    intro b states gen
    rfl
  | succ n ih =>
    intro b states gen
    rw [runUntilStableAux_succ, runUntilStableSpecAux_succ]
    by_cases hext : (rule b).count_alive = 0
    · simp [hext]
    · by_cases hstill : (rule b).grid = b.grid
      · simp [hext, hstill]
      · by_cases hgate : gen % checkPeriod = 0
        · simp only [hext, hstill, hgate, if_true, if_false, ite_true, ite_false]
          cases hscan : oscanAux (rule b).grid (lastN 100 states) 0 with
          | some i => simp [hscan]
          | none =>
            simp only [hscan]
            rw [ih (rule b) (states ++ [(rule b).grid]) (gen + 1),
              lastN_append_window states (rule b).grid, List.length_append]
            simp
        · simp only [hext, hstill, hgate, if_true, if_false, ite_true, ite_false]
          exact ih (rule b) states (gen + 1)

/-- C2: the source's oscillation bookkeeping in `run_until_stable` —
compare, on generations with `gen % check_period == 0`, the current grid
against `previous_states[-100:]` and on a match classify with period
`len(previous_states) - i` — coincides, for every rule, board and
parameters, with the claim's description: a sliding window of at most 100
snapshots whose oldest entry is discarded once the window exceeds 100
entries, with period = (number of snapshots recorded so far) − (index of
the matching snapshot in the kept window). -/
theorem run_until_stable_window_equiv (rule : Board → Board) (b : Board)
    (maxGenerations checkPeriod : Nat) :
    Simulator.run_until_stable rule b maxGenerations checkPeriod =
      Simulator.runUntilStableSpec rule b maxGenerations checkPeriod := by
  unfold Simulator.run_until_stable Simulator.runUntilStableSpec
  have h := runUntilStableAux_eq_spec rule checkPeriod maxGenerations b [] 0
  simpa [lastN] using h

/-! ### Rule-registry lemmas -/

theorem list_rules_dictSet {α : Type} (reg : List (String × α)) (name : String)
    (v : α) :
    RuleRegistry.list_rules (RuleRegistry.dictSet reg name v) =
      (if name ∈ RuleRegistry.list_rules reg then RuleRegistry.list_rules reg
       else RuleRegistry.list_rules reg ++ [name]) := by
  induction reg with
  | nil => simp [RuleRegistry.dictSet, RuleRegistry.list_rules]
  | cons p rest ih =>
    obtain ⟨k, w⟩ := p
    by_cases hk : k = name
    · subst hk
      simp [RuleRegistry.dictSet, RuleRegistry.list_rules]
    · simp only [RuleRegistry.dictSet, if_neg hk]
      simp only [RuleRegistry.list_rules, List.map_cons] at ih ⊢
      rw [ih]
      have hnk : ¬name = k := fun h => hk h.symm
      by_cases hm : name ∈ rest.map Prod.fst
      · rw [if_pos hm, if_pos (List.mem_cons_of_mem k hm)]
      · rw [if_neg hm, if_neg (by simp [hnk, hm])]
        rfl

theorem lookupAssoc_dictSet_self {α : Type} (reg : List (String × α))
    (name : String) (v : α) :
    RuleRegistry.lookupAssoc (RuleRegistry.dictSet reg name v) name = some v := by
  induction reg with
  | nil => simp [RuleRegistry.dictSet, RuleRegistry.lookupAssoc]
  | cons p rest ih =>
    obtain ⟨k, w⟩ := p
    by_cases hk : k = name
    · subst hk
      simp [RuleRegistry.dictSet, RuleRegistry.lookupAssoc]
    · simp [RuleRegistry.dictSet, RuleRegistry.lookupAssoc, hk, ih]

/-- C9: registering a rule under an already-registered name raises no
error (`register` is total) and silently overwrites: afterwards the name
is listed exactly once, `get_rule` returns the new rule, and `list_rules`
is unchanged when the name existed (the key keeps its original position,
as a Python dict does) and is the old list with the name appended when it
did not — i.e. insertion order throughout. -/
theorem register_overwrite (reg : List (String × (Board → Board)))
    (name : String) (rule : Board → Board)
    (hnd : (RuleRegistry.list_rules reg).Nodup) :
    (RuleRegistry.list_rules (RuleRegistry.register reg name rule)).count name = 1 ∧
    RuleRegistry.get_rule (RuleRegistry.register reg name rule) name = .ok rule ∧
    RuleRegistry.list_rules (RuleRegistry.register reg name rule) =
      (if name ∈ RuleRegistry.list_rules reg then RuleRegistry.list_rules reg
       else RuleRegistry.list_rules reg ++ [name]) := by
  refine ⟨?_, ?_, list_rules_dictSet reg name rule⟩
  · rw [RuleRegistry.register, list_rules_dictSet reg name rule]
    by_cases hm : name ∈ RuleRegistry.list_rules reg
    · rw [if_pos hm]
      exact List.count_eq_one_of_mem hnd hm
    · rw [if_neg hm, List.count_append]
      rw [List.count_eq_zero_of_not_mem hm]
      simp
  · rw [RuleRegistry.register, RuleRegistry.get_rule,
      lookupAssoc_dictSet_self reg name rule]

/-- C9 witness: overwriting the rule stored under `"standard"` in a
two-entry registry. -/
theorem register_overwrite_witness :
    (RuleRegistry.list_rules (RuleRegistry.register
        [("standard", StandardRules.evolve), ("highlife", HighLifeRules.evolve)]
        "standard" DayAndNightRules.evolve)).count "standard" = 1 ∧
    RuleRegistry.get_rule (RuleRegistry.register
        [("standard", StandardRules.evolve), ("highlife", HighLifeRules.evolve)]
        "standard" DayAndNightRules.evolve) "standard" = .ok DayAndNightRules.evolve ∧
    RuleRegistry.list_rules (RuleRegistry.register
        [("standard", StandardRules.evolve), ("highlife", HighLifeRules.evolve)]
        "standard" DayAndNightRules.evolve) =
      (if "standard" ∈ RuleRegistry.list_rules
          [("standard", StandardRules.evolve), ("highlife", HighLifeRules.evolve)]
       then RuleRegistry.list_rules
          [("standard", StandardRules.evolve), ("highlife", HighLifeRules.evolve)]
       else RuleRegistry.list_rules
          [("standard", StandardRules.evolve), ("highlife", HighLifeRules.evolve)]
          ++ ["standard"]) :=
  register_overwrite
    [("standard", StandardRules.evolve), ("highlife", HighLifeRules.evolve)]
    "standard" DayAndNightRules.evolve (by simp [RuleRegistry.list_rules])

/-! ### Cell-write lemmas -/

/-- C10: `set_cell` is atomic on failure — whenever it raises, the board
object (grid and generation alike) is exactly as before the call — and
the bounds check precedes the value check, so an out-of-bounds write with
an invalid value reports `IndexError` (OutOfBounds). -/
theorem set_cell_atomic (b : Board) (row col value : Int) :
    ((b.set_cell row col value).1 ≠ none → (b.set_cell row col value).2 = b) ∧
    (¬(0 ≤ row ∧ row < (b.height : Int) ∧ 0 ≤ col ∧ col < (b.width : Int)) →
      b.set_cell row col value = (some .outOfBounds, b)) ∧
    ((0 ≤ row ∧ row < (b.height : Int) ∧ 0 ≤ col ∧ col < (b.width : Int)) →
      ¬(value = 0 ∨ value = 1) →
      b.set_cell row col value = (some .invalidValue, b)) := by
  unfold Board.set_cell
  by_cases hb : 0 ≤ row ∧ row < (b.height : Int) ∧ 0 ≤ col ∧ col < (b.width : Int)
  · by_cases hv : value = 0 ∨ value = 1
    · simp [hb, hv]
    · simp [hb, hv]
  · simp [hb]

/-- C10 witness: an out-of-bounds write with an invalid value on a
concrete board reports OutOfBounds and leaves the board unchanged. -/
theorem set_cell_atomic_witness :
    (Board.mk 2 2 [[0, 0], [0, 0]] 0).set_cell (-1) 0 5 =
      (some .outOfBounds, Board.mk 2 2 [[0, 0], [0, 0]] 0) :=
  (set_cell_atomic (Board.mk 2 2 [[0, 0], [0, 0]] 0) (-1) 0 5).2.1 (by decide)

/-! ### Pattern-codec lemmas -/

namespace PatternCodec

theorem splitOnNl_cons (c : Char) (rest : List Char) :
    splitOnNl (c :: rest) =
      (if c = '\n' then [] :: splitOnNl rest
       else
         match splitOnNl rest with
         | [] => [[c]]
         | line :: more => (c :: line) :: more) := rfl

theorem splitOnNl_ne_nil (l : List Char) : splitOnNl l ≠ [] := by
  cases l with
  | nil => simp [splitOnNl]
  | cons c rest =>
    rw [splitOnNl_cons]
    by_cases hc : c = '\n'
    · simp [hc]
    · rw [if_neg hc]
      cases h : splitOnNl rest <;> simp

theorem splitOnNl_append_line (l rest : List Char) (hl : '\n' ∉ l) :
    splitOnNl (l ++ '\n' :: rest) = l :: splitOnNl rest := by
  induction l with
  | nil =>
    simp [splitOnNl_cons]
  | cons c cs ih =>
    have hc : ¬c = '\n' := fun h => hl (by simp [h])
    have hcs : '\n' ∉ cs := fun h => hl (List.mem_cons_of_mem c h)
    rw [List.cons_append, splitOnNl_cons, if_neg hc, ih hcs]

/-- A list of newline-free lines, each written with a final `'\n'`, splits
back into exactly those lines followed by one empty trailing segment —
the `content.split('\n')` the plaintext parser sees. -/
theorem splitOnNl_joinLines (lines : List (List Char))
    (h : ∀ l ∈ lines, '\n' ∉ l) :
    splitOnNl ((lines.map (fun l => l ++ ['\n'])).flatten) = lines ++ [[]] := by
  induction lines with
  | nil => rfl
  | cons l ls ih =>
    rw [List.map_cons, List.flatten_cons, List.append_assoc, List.singleton_append,
      splitOnNl_append_line l _ (h l (List.mem_cons_self l ls)),
      ih (fun x hx => h x (List.mem_cons_of_mem l hx))]
    rfl

theorem digitChar_not_nl (d : Nat) : digitChar d ≠ '\n' := by
  rcases d with _ | _ | _ | _ | _ | _ | _ | _ | _ | d <;>
    first
      | decide
      | exact (by decide : ('9' : Char) ≠ '\n')

theorem digitChar_not_ws (d : Nat) : pythonWS (digitChar d) = false := by
  rcases d with _ | _ | _ | _ | _ | _ | _ | _ | _ | d <;>
    first
      | decide
      | exact (by decide : pythonWS '9' = false)

theorem natReprAux_not_nl : ∀ (fuel n : Nat), '\n' ∉ natReprAux fuel n := by
  intro fuel
  induction fuel with
  | zero => intro n; simp [natReprAux]
  | succ f ih =>
    intro n
    rw [natReprAux]
    split
    · intro hmem
      exact digitChar_not_nl n (List.mem_singleton.mp hmem).symm
    · intro hmem
      rcases List.mem_append.mp hmem with h | h
      · exact ih (n / 10) h
      · exact digitChar_not_nl (n % 10) (List.mem_singleton.mp h).symm

theorem natRepr_not_nl (n : Nat) : '\n' ∉ natRepr n :=
  natReprAux_not_nl (n + 1) n

/-- Python's `str(n)` ends in a digit character. -/
theorem natRepr_ends_digit (n : Nat) :
    ∃ l d, natRepr n = l ++ [digitChar d] := by
  rw [natRepr, natReprAux]
  split
  · exact ⟨[], n, rfl⟩
  · exact ⟨natReprAux n (n / 10), n % 10, rfl⟩

theorem dropWhile_append_last (p : Char → Bool) (xs : List Char) (a : Char)
    (ha : p a = false) :
    (xs ++ [a]).dropWhile p = xs.dropWhile p ++ [a] := by
  induction xs with
  | nil => simp [List.dropWhile_cons, ha]
  | cons c cs ih =>
    rw [List.cons_append, List.dropWhile_cons, List.dropWhile_cons]
    by_cases hc : p c = true
    · rw [if_pos hc, if_pos hc, ih]
    · rw [if_neg hc, if_neg hc, List.cons_append]

/-- `rstrip` keeps a non-whitespace head in place. -/
theorem rstrip_cons_of_not_ws (a : Char) (l : List Char)
    (ha : pythonWS a = false) :
    rstrip (a :: l) = a :: rstrip l := by
  unfold rstrip
  rw [List.reverse_cons, dropWhile_append_last pythonWS l.reverse a ha,
    List.reverse_append]
  rfl

/-- `rstrip` of a line ending in a non-whitespace character is the line
itself. -/
theorem rstrip_append_last (l : List Char) (a : Char)
    (ha : pythonWS a = false) :
    rstrip (l ++ [a]) = l ++ [a] := by
  unfold rstrip
  rw [List.reverse_append, List.reverse_singleton, List.singleton_append,
    List.dropWhile_cons, if_neg (by simp [ha]), List.reverse_cons,
    List.reverse_reverse]

theorem rstrip_eq_self_of_no_ws (l : List Char)
    (h : ∀ c ∈ l, pythonWS c = false) : rstrip l = l := by
  unfold rstrip
  have hdw : l.reverse.dropWhile pythonWS = l.reverse := by
    cases hrev : l.reverse with
    | nil => rfl
    | cons a t =>
      have ha : a ∈ l := List.mem_reverse.mp (by rw [hrev]; exact List.mem_cons_self a t)
      rw [List.dropWhile_cons, if_neg (by simp [h a ha])]
  rw [hdw, List.reverse_reverse]

theorem lineOfRow_cons (v : Nat) (vs : List Nat) :
    lineOfRow (v :: vs) = (if v ≠ 0 then 'O' else '.') :: lineOfRow vs := rfl

theorem lineOfRow_chars (row : List Nat) :
    ∀ c ∈ lineOfRow row, c = 'O' ∨ c = '.' := by
  intro c hc
  simp only [lineOfRow, List.mem_map] at hc
  obtain ⟨v, -, rfl⟩ := hc
  by_cases hv : v ≠ 0 <;> simp [hv]

theorem lineOfRow_not_nl (row : List Nat) : '\n' ∉ lineOfRow row := by
  intro h
  rcases lineOfRow_chars row '\n' h with h' | h' <;> exact absurd h' (by decide)

theorem lineOfRow_no_ws (row : List Nat) :
    ∀ c ∈ lineOfRow row, pythonWS c = false := by
  intro c hc
  rcases lineOfRow_chars row c hc with rfl | rfl <;> decide

theorem lineOfRow_head_ne_hash (row : List Nat) :
    ¬(lineOfRow row).head? = some '#' := by
  cases row with
  | nil => simp [lineOfRow]
  | cons v vs =>
    rw [lineOfRow_cons, List.head?_cons]
    by_cases hv : v ≠ 0 <;> simp [hv]

theorem cellsOfLineAux_lineOfRow (r : Nat) (row : List Nat) :
    ∀ c0, cellsOfLineAux r (lineOfRow row) c0 = liveRowAux r row c0 := by
  induction row with
  | nil => intro c0; rfl
  | cons v vs ih =>
    intro c0
    rw [lineOfRow_cons]
    simp only [cellsOfLineAux, liveRowAux]
    rw [ih (c0 + 1)]
    by_cases hv : v ≠ 0 <;> simp [hv]

theorem liveRowAux_shift (r s : Nat) (row : List Nat) :
    ∀ c0, liveRowAux (r + s) row c0 =
      (liveRowAux r row c0).map (fun p => (p.1 + s, p.2)) := by
  induction row with
  | nil => intro c0; rfl
  | cons v vs ih =>
    intro c0
    simp only [liveRowAux]
    rw [List.map_append, ih (c0 + 1)]
    by_cases hv : v ≠ 0 <;> simp [hv]

theorem liveCellsAux_shift (g : List (List Nat)) (s : Nat) :
    ∀ k, liveCellsAux g (k + s) =
      (liveCellsAux g k).map (fun p => (p.1 + s, p.2)) := by
  induction g with
  | nil => intro k; rfl
  | cons row rows ih =>
    intro k
    simp only [liveCellsAux]
    rw [List.map_append, liveRowAux_shift k s row 0,
      show k + s + 1 = k + 1 + s by omega, ih (k + 1)]

theorem plaintextCellsAux_gridLines (g : List (List Nat)) :
    ∀ k, plaintextCellsAux (g.map lineOfRow ++ [[]]) k = liveCellsAux g k := by
  induction g with
  | nil => intro k; rfl
  | cons row rows ih =>
    intro k
    rw [List.map_cons, List.cons_append]
    simp only [plaintextCellsAux, liveCellsAux]
    rw [rstrip_eq_self_of_no_ws (lineOfRow row) (lineOfRow_no_ws row),
      if_neg (lineOfRow_head_ne_hash row), cellsOfLineAux_lineOfRow k row 0,
      ih (k + 1)]

theorem plaintextCellsAux_comment (line : List Char) (rest : List (List Char))
    (k : Nat) (h : (rstrip line).head? = some '#') :
    plaintextCellsAux (line :: rest) k = plaintextCellsAux rest (k + 1) := by
  simp only [plaintextCellsAux]
  rw [if_pos h]

/-- Every header line `save_pattern` writes that ends in a number is a
comment line for the parser: it starts with `#` and `rstrip` keeps that
head. -/
theorem header_is_comment (s : List Char) (n : Nat) :
    (rstrip (('#' :: s) ++ natRepr n)).head? = some '#' := by
  obtain ⟨l, d, hd⟩ := natRepr_ends_digit n
  rw [hd, ← List.append_assoc, rstrip_append_last _ _ (digitChar_not_ws d)]
  simp

/-- The file `save_pattern(filename, board)` writes (no name, no
comments), as its list of newline-terminated lines: two numeric header
comments, the bare `#` separator, then one line per grid row. -/
theorem save_pattern_lines (b : Board) :
    save_pattern b none [] =
      ((["# Generation: ".toList ++ natRepr b.generation,
         "# Alive cells: ".toList ++ natRepr b.count_alive,
         "#".toList] ++ b.grid.map lineOfRow).map (fun l => l ++ ['\n'])).flatten := by
  simp only [save_pattern, List.map_cons, List.map_nil, List.flatten_cons,
    List.flatten_nil, List.map_append, List.map_map, List.flatten_append,
    List.append_assoc, List.nil_append, List.append_nil]
  rfl

/-- C3 (amended): saving any board with at least one live cell (no name,
no comments) and re-parsing through the plaintext path succeeds and
yields exactly the original live cells with every row index increased
by 3 — the three header comment lines, because `_parse_plaintext`'s
`enumerate(lines)` counts comment lines as rows. -/
theorem save_roundtrip_shifted (b : Board) (hlive : liveCells b ≠ []) :
    parsePlaintextCells (save_pattern b none []) =
      .ok ((liveCells b).map (fun p => (p.1 + 3, p.2))) := by
  have hnl : ∀ l ∈ (["# Generation: ".toList ++ natRepr b.generation,
      "# Alive cells: ".toList ++ natRepr b.count_alive,
      "#".toList] ++ b.grid.map lineOfRow), '\n' ∉ l := by
    intro l hl
    rcases List.mem_append.mp hl with h | h
    · rcases List.mem_cons.mp h with rfl | h
      · intro hmem
        rcases List.mem_append.mp hmem with h' | h'
        · exact absurd h' (by decide)
        · exact natRepr_not_nl b.generation h'
      · rcases List.mem_cons.mp h with rfl | h
        · intro hmem
          rcases List.mem_append.mp hmem with h' | h'
          · exact absurd h' (by decide)
          · exact natRepr_not_nl b.count_alive h'
        · rcases List.mem_cons.mp h with rfl | h
          · decide
          · exact absurd h (List.not_mem_nil l)
    · rcases List.mem_map.mp h with ⟨row, -, rfl⟩
      exact lineOfRow_not_nl row
  unfold parsePlaintextCells
  rw [save_pattern_lines b, splitOnNl_joinLines _ hnl, List.append_assoc,
    List.cons_append, List.cons_append, List.cons_append, List.nil_append]
  rw [plaintextCellsAux_comment _ _ 0
      (by
        rw [show "# Generation: ".toList ++ natRepr b.generation =
            ('#' :: " Generation: ".toList) ++ natRepr b.generation from rfl]
        exact header_is_comment _ b.generation),
    plaintextCellsAux_comment _ _ 1
      (by
        rw [show "# Alive cells: ".toList ++ natRepr b.count_alive =
            ('#' :: " Alive cells: ".toList) ++ natRepr b.count_alive from rfl]
        exact header_is_comment _ b.count_alive),
    plaintextCellsAux_comment _ _ 2 (by decide)]
  rw [plaintextCellsAux_gridLines b.grid 3,
    show (3 : Nat) = 0 + 3 from rfl, liveCellsAux_shift b.grid 3 0]
  rw [if_neg (by
    rw [List.map_eq_nil_iff]
    exact hlive)]
  rfl

/-- C3 amended-claim witness: the shifted round-trip at a concrete 2×2
board with two live cells. -/
theorem save_roundtrip_shifted_witness :
    parsePlaintextCells (save_pattern (Board.mk 2 2 [[1, 0], [0, 1]] 0) none []) =
      .ok ((liveCells (Board.mk 2 2 [[1, 0], [0, 1]] 0)).map
        (fun p => (p.1 + 3, p.2))) :=
  save_roundtrip_shifted (Board.mk 2 2 [[1, 0], [0, 1]] 0) (by decide)

/-- C3 counterexample: for the 1×1 board whose only cell is alive, the
saved pattern re-parsed through the plaintext path yields `[(3, 0)]`, not
the original live-cell set `[(0, 0)]` — the claimed identity round-trip
fails. -/
theorem save_roundtrip_not_identity :
    liveCells (Board.mk 1 1 [[1]] 0) = [(0, 0)] ∧
    parsePlaintextCells (save_pattern (Board.mk 1 1 [[1]] 0) none []) =
      .ok [(3, 0)] ∧
    parsePlaintextCells (save_pattern (Board.mk 1 1 [[1]] 0) none []) ≠
      .ok (liveCells (Board.mk 1 1 [[1]] 0)) := by
  refine ⟨by decide, by rfl, ?_⟩
  intro h
  have h2 : parsePlaintextCells (save_pattern (Board.mk 1 1 [[1]] 0) none []) =
      .ok [(3, 0)] := by rfl
  rw [h2, show liveCells (Board.mk 1 1 [[1]] 0) = [(0, 0)] from by decide] at h
  exact absurd (Except.ok.inj h) (by decide)

end PatternCodec

end GameOfLife
